import Mathlib

/-!
Verification of the picgo-plugin-backblaze repository (a PicGo uploader
plugin for Backblaze B2).  The JavaScript source (index.js, gui.js) is
shallowly embedded here: JS strings become `List Char`, JS dynamic values
become the inductive `JSValue`, network transports become explicit
response/oracle parameters, and fallible code returns `Except`/`Option`.
-/

/-- JS strings are modelled as lists of characters. -/
abbrev JStr := List Char

/-- A JavaScript runtime value as it appears in this plugin: `undefined`,
`null`, booleans, numbers (the plugin only manipulates integral status
codes and lengths, so numbers are modelled as `Int`), strings, arrays and
plain objects (association lists of fields). -/
inductive JSValue where
  | undefined : JSValue
  | null : JSValue
  | bool : Bool → JSValue
  | num : Int → JSValue
  | str : JStr → JSValue
  | arr : List JSValue → JSValue
  | obj : List (JStr × JSValue) → JSValue
deriving Repr

/-- JS truthiness: `undefined`, `null`, `false`, `0` and `""` are falsy,
everything else (including every object and array) is truthy. -/
def truthy : JSValue → Bool
  | .undefined => false
  | .null => false
  | .bool b => b
  | .num n => n != 0
  | .str s => !s.isEmpty
  | .arr _ => true
  | .obj _ => true

/-- The JS short-circuit `a || b`: `a` when truthy, else `b`. -/
def jsOr (a b : JSValue) : JSValue := if truthy a then a else b

/-- `typeof v === 'object' && v !== null`: true exactly for arrays and
plain objects in this model. -/
def isObjectLike : JSValue → Bool
  | .arr _ => true
  | .obj _ => true
  | _ => false

/-- Property access `v.k`: the field value on an object, `undefined`
otherwise (this plugin never reads these property names off arrays or
primitives with a defined result). -/
def getField (v : JSValue) (k : JStr) : JSValue :=
  match v with
  | .obj fs =>
    match fs.lookup k with
    | some x => x
    | none => .undefined
  | _ => .undefined

/-- Is this value literally `undefined`? -/
def isUndefined : JSValue → Bool
  | .undefined => true
  | _ => false

/-- Modelled from the spec of JS string-to-number coercion, restricted to
what this plugin can meet: an optionally signed decimal integer string
converts to that integer, anything else is NaN (`none`).  Status codes in
practice are numbers, for which the model is exact. -/
def strToNumber (s : JStr) : Option Int :=
  match s with
  | '-' :: rest =>
    if rest ≠ [] ∧ rest.all Char.isDigit then
      some (-(Int.ofNat (rest.foldl (fun a c => a * 10 + (c.toNat - 48)) 0)))
    else none
  | _ =>
    if s ≠ [] ∧ s.all Char.isDigit then
      some (Int.ofNat (s.foldl (fun a c => a * 10 + (c.toNat - 48)) 0))
    else none

/-- JS `Number(v)` coercion (`none` = NaN).  Arrays and objects are
coerced to NaN in this model; the plugin only ever compares status-code
fields, which are numbers or absent. -/
def jsToNumber : JSValue → Option Int
  | .undefined => none
  | .null => some 0
  | .bool b => some (if b then 1 else 0)
  | .num n => some n
  | .str s => strToNumber s
  | .arr _ => none
  | .obj _ => none

/-- The JS comparison `v < n` (false when either side is NaN). -/
def jsLtNum (v : JSValue) (n : Int) : Bool :=
  match jsToNumber v with
  | some m => m < n
  | none => false

/-- The JS comparison `v >= n` (false when either side is NaN). -/
def jsGeNum (v : JSValue) (n : Int) : Bool :=
  match jsToNumber v with
  | some m => n ≤ m
  | none => false

/-- Strict equality `v === n` against a number literal. -/
def jsStrictEqNum (v : JSValue) (n : Int) : Bool :=
  match v with
  | .num m => m == n
  | _ => false

/-- Strict equality `v === s` against a string. -/
def jsStrictEqStr (v : JSValue) (s : JStr) : Bool :=
  match v with
  | .str t => t == s
  | _ => false

/-- Whitespace skipping for the JSON reader. -/
def skipWs (l : JStr) : JStr :=
  l.dropWhile (fun c => c = ' ' ∨ c = '\t' ∨ c = '\n' ∨ c = '\r')

/-- Read a JSON string body after the opening quote; handles the escapes
this plugin's payloads can contain. -/
def readJStr (fuel : Nat) (l : JStr) : Option (JStr × JStr) :=
  match fuel, l with
  | 0, _ => none
  | _, [] => none
  | fuel + 1, c :: rest =>
    if c = Char.ofNat 34 then some ([], rest)
    else if c = Char.ofNat 92 then
      match rest with
      | [] => none
      | e :: rest2 =>
        let unesc : Option Char :=
          if e = Char.ofNat 34 then some (Char.ofNat 34)
          else if e = Char.ofNat 92 then some (Char.ofNat 92)
          else if e = '/' then some '/'
          else if e = 'n' then some '\n'
          else if e = 't' then some '\t'
          else if e = 'r' then some '\r'
          else none
        match unesc with
        | none => none
        | some u =>
          match readJStr fuel rest2 with
          | some (s, rem) => some (u :: s, rem)
          | none => none
    else
      match readJStr fuel rest with
      | some (s, rem) => some (c :: s, rem)
      | none => none

mutual

/-- Modelled from the spec of `JSON.parse`, restricted to the JSON this
plugin meets: objects, arrays, strings, integers, booleans and null
(fractional numbers are not modelled).  Returns the value and the unread
remainder, or `none` on malformed input. -/
def parseJVal (fuel : Nat) (l : JStr) : Option (JSValue × JStr) :=
  match fuel with
  | 0 => none
  | fuel + 1 =>
    match skipWs l with
    | [] => none
    | c :: rest =>
      if c = 'n' then
        if "ull".toList.isPrefixOf rest then some (.null, rest.drop 3) else none
      else if c = 't' then
        if "rue".toList.isPrefixOf rest then some (.bool true, rest.drop 3) else none
      else if c = 'f' then
        if "alse".toList.isPrefixOf rest then some (.bool false, rest.drop 4) else none
      else if c = Char.ofNat 34 then
        match readJStr (rest.length + 1) rest with
        | some (s, rem) => some (.str s, rem)
        | none => none
      else if c = Char.ofNat 91 then
        match skipWs rest with
        | d :: rest2 =>
          if d = Char.ofNat 93 then some (.arr [], rest2)
          else
            match parseJElems fuel rest with
            | some (xs, rem) => some (.arr xs, rem)
            | none => none
        | [] => none
      else if c = Char.ofNat 123 then
        match skipWs rest with
        | d :: rest2 =>
          if d = Char.ofNat 125 then some (.obj [], rest2)
          else
            match parseJFields fuel rest with
            | some (fs, rem) => some (.obj fs, rem)
            | none => none
        | [] => none
      else if c = '-' ∨ c.isDigit then
        let neg := c = '-'
        let digs := if neg then rest.takeWhile Char.isDigit else c :: rest.takeWhile Char.isDigit
        let rem := if neg then rest.dropWhile Char.isDigit else rest.dropWhile Char.isDigit
        if digs = [] then none
        else
          let n : Int := Int.ofNat (digs.foldl (fun a d => a * 10 + (d.toNat - 48)) 0)
          some (.num (if neg then -n else n), rem)
      else none

/-- Comma-separated JSON array elements (at least one), consuming the
closing bracket. -/
def parseJElems (fuel : Nat) (l : JStr) : Option (List JSValue × JStr) :=
  match fuel with
  | 0 => none
  | fuel + 1 =>
    match parseJVal fuel l with
    | none => none
    | some (v, rem) =>
      match skipWs rem with
      | c :: rest =>
        if c = ',' then
          match parseJElems fuel rest with
          | some (xs, rem2) => some (v :: xs, rem2)
          | none => none
        else if c = Char.ofNat 93 then some ([v], rest)
        else none
      | [] => none

/-- Comma-separated JSON object members (at least one), consuming the
closing brace. -/
def parseJFields (fuel : Nat) (l : JStr) : Option (List (JStr × JSValue) × JStr) :=
  match fuel with
  | 0 => none
  | fuel + 1 =>
    match skipWs l with
    | c :: rest =>
      if c = Char.ofNat 34 then
        match readJStr (rest.length + 1) rest with
        | none => none
        | some (k, rem) =>
          match skipWs rem with
          | ':' :: rest2 =>
            match parseJVal fuel rest2 with
            | none => none
            | some (v, rem2) =>
              match skipWs rem2 with
              | d :: rest3 =>
                if d = ',' then
                  match parseJFields fuel rest3 with
                  | some (fs, rem3) => some ((k, v) :: fs, rem3)
                  | none => none
                else if d = Char.ofNat 125 then some ([(k, v)], rest3)
                else none
              | [] => none
          | _ => none
      else none
    | [] => none

end

/-- `JSON.parse(s)` as used by the plugin: parse a complete document,
rejecting trailing garbage; `none` models the thrown SyntaxError. -/
def jsonParse (s : JStr) : Option JSValue :=
  match parseJVal (s.length + 1) s with
  | some (v, rem) => if skipWs rem = [] then some v else none
  | none => none

/-- The shared "if body is a string, try to parse as JSON, else keep as
string" step of both `parseResponse` versions. -/
def parseIfString (b : JSValue) : JSValue :=
  match b with
  | .str s =>
    match jsonParse s with
    | some v => v
    | none => .str s
  | _ => b

/-- A normalized `{statusCode, body}` pair, the result shape of both
`parseResponse` versions. -/
structure Envelope where
  statusCode : JSValue
  body : JSValue
deriving Repr

def statusCodeKey : JStr := "statusCode".toList
def statusKey : JStr := "status".toList
def bodyKey : JStr := "body".toList
def dataKey : JStr := "data".toList

/-- The earlier `parseResponse(result, log)` of index.js (first version,
lines 35-61): unconditionally takes `statusCode || status` and
`body || data`, re-parsing a string body.  The `log` argument only logs
and is dropped in this pure embedding. -/
def parseResponseV1 (result : JSValue) : Envelope :=
  if isObjectLike result then
    { statusCode := jsOr (getField result statusCodeKey) (getField result statusKey)
      body := parseIfString (jsOr (getField result bodyKey) (getField result dataKey)) }
  else
    { statusCode := .undefined, body := result }

/-- The later three-branch `parseResponse(result)` of index.js (second
version, lines 479-506). -/
def parseResponseV2 (result : JSValue) : Envelope :=
  if isObjectLike result then
    let sc := jsOr (getField result statusCodeKey) (getField result statusKey)
    if truthy sc && (jsLtNum sc 200 || jsGeNum sc 300) then
      { statusCode := sc
        body := parseIfString
          (jsOr (jsOr (getField result bodyKey) (getField result dataKey)) result) }
    else if !isUndefined (getField result bodyKey) || !isUndefined (getField result dataKey) then
      { statusCode := .num 200
        body := parseIfString (jsOr (getField result bodyKey) (getField result dataKey)) }
    else
      { statusCode := .num 200, body := result }
  else
    { statusCode := .undefined, body := result }

/-- Index of the last `'.'` in a list of characters, if any (the
`Option`-valued core of JS `lastIndexOf('.')`). -/
def findLastDot : JStr → Option Nat
  | [] => none
  | c :: cs =>
    match findLastDot cs with
    | some i => some (i + 1)
    | none => if c = '.' then some 0 else none

/-- `originalName.substring(originalName.lastIndexOf('.'))` from
`generateUniqueFileName` (index.js line 464): JS `substring` clamps the
`-1` of a missing dot up to `0`, so a dotless name yields the WHOLE name
here, not the empty string. -/
def fileExtPart (name : JStr) : JStr :=
  match findLastDot name with
  | some i => name.drop i
  | none => name.drop 0

/-- `originalName.substring(0, originalName.lastIndexOf('.'))` from
`generateUniqueFileName` (index.js line 465): with no dot, JS
`substring(0, -1)` clamps to `substring(0, 0) = ""`. -/
def fileBasePart (name : JStr) : JStr :=
  match findLastDot name with
  | some i => name.take i
  | none => name.take 0

/-- `generateUniqueFileName` (index.js lines 461-467).  `Date.now()` and
`Math.random().toString(36).substring(2, 8)` are environment effects;
they enter the pure embedding as the already-interpolated strings
`tsStr` and `randomStr`. -/
def generateUniqueFileName (originalName tsStr randomStr : JStr) : JStr :=
  fileBasePart originalName ++ '_' :: tsStr ++ '_' :: randomStr ++ fileExtPart originalName

/-- Characters `encodeURIComponent` leaves unescaped:
`A-Z a-z 0-9 - _ . ! ~ * ' ( )`. -/
def isUnreservedURI (c : Char) : Bool :=
  c.isAlpha || c.isDigit ||
    c = '-' || c = '_' || c = '.' || c = '!' || c = '~' || c = '*' ||
    c = Char.ofNat 39 || c = '(' || c = ')'

/-- Uppercase hex digit of a nibble. -/
def hexUpper (n : Nat) : Char :=
  if n < 10 then Char.ofNat (48 + n) else Char.ofNat (55 + n)

/-- Modelled from the spec of UTF-8: the byte sequence of a code point. -/
def utf8Bytes (n : Nat) : List Nat :=
  if n < 128 then [n]
  else if n < 2048 then [192 + n / 64, 128 + n % 64]
  else if n < 65536 then [224 + n / 4096, 128 + n / 64 % 64, 128 + n % 64]
  else [240 + n / 262144, 128 + n / 4096 % 64, 128 + n / 64 % 64, 128 + n % 64]

/-- A percent-escape `%XY` for one byte (the mod keeps both nibbles
below 16; for actual bytes `b < 256` it changes nothing). -/
def pctByte (b : Nat) : JStr :=
  ['%', hexUpper (b / 16 % 16), hexUpper (b % 16)]

/-- Modelled from the spec of JS `encodeURIComponent`: unreserved
characters pass through, every other character is replaced by the
percent-escapes of its UTF-8 bytes. -/
def encodeURIComponent (s : JStr) : JStr :=
  (s.map (fun c =>
    if isUnreservedURI c then [c]
    else ((utf8Bytes c.toNat).map pctByte).flatten)).flatten

/-- `buildFileUrl` (index.js lines 658-664): with a truthy custom domain,
strip one trailing slash and append the percent-encoded key; otherwise
use the native `downloadUrl/file/bucketName/` shape.  An unconfigured
custom domain is the empty (falsy) string. -/
def buildFileUrl (downloadUrl bucketName fileName customDomain : JStr) : JStr :=
  if !customDomain.isEmpty then
    let domain :=
      if customDomain.getLast? = some '/' then customDomain.dropLast else customDomain
    domain ++ '/' :: encodeURIComponent fileName
  else
    downloadUrl ++ "/file/".toList ++ bucketName ++ '/' :: encodeURIComponent fileName

/-- Truncation to a 32-bit word. -/
def w32 (x : Nat) : Nat := x % 4294967296

/-- 32-bit left rotation (callers pass words already < 2^32). -/
def rotl32 (n x : Nat) : Nat := w32 (x * 2 ^ n + x / 2 ^ (32 - n))

/-- 32-bit bitwise complement. -/
def not32 (x : Nat) : Nat := 4294967295 - w32 x

/-- Big-endian 8-byte encoding of a (bit-)length. -/
def be64 (n : Nat) : List Nat :=
  [n / 2 ^ 56 % 256, n / 2 ^ 48 % 256, n / 2 ^ 40 % 256, n / 2 ^ 32 % 256,
   n / 2 ^ 24 % 256, n / 2 ^ 16 % 256, n / 2 ^ 8 % 256, n % 256]

/-- SHA-1 padding: `0x80`, zeros to 56 mod 64, then the 64-bit big-endian
bit length. -/
def sha1Pad (msg : List Nat) : List Nat :=
  msg ++ 128 :: List.replicate ((119 - msg.length % 64) % 64) 0 ++ be64 (msg.length * 8)

/-- Split a byte list into 64-byte chunks. -/
def chunks64 (l : List Nat) : List (List Nat) :=
  if l.isEmpty then [] else l.take 64 :: chunks64 (l.drop 64)
termination_by l.length
decreasing_by
  simp only [List.length_drop]
  have : l.length ≠ 0 := fun h => by simp [List.isEmpty_iff_length_eq_zero.2 h] at *
  omega

/-- Big-endian 32-bit words of a chunk. -/
def bytesToWords : List Nat → List Nat
  | a :: b :: c :: d :: rest => (a * 16777216 + b * 65536 + c * 256 + d) :: bytesToWords rest
  | _ => []

/-- One step of the SHA-1 message-schedule extension. -/
def schedStep (w : List Nat) : List Nat :=
  let i := w.length
  w ++ [rotl32 1 (((w.getD (i - 3) 0) ^^^ (w.getD (i - 8) 0)) ^^^
    ((w.getD (i - 14) 0) ^^^ (w.getD (i - 16) 0)))]

/-- Iterate the schedule extension `k` times. -/
def schedIter (w : List Nat) : Nat → List Nat
  | 0 => w
  | k + 1 => schedStep (schedIter w k)

/-- The 80-word SHA-1 message schedule of a 16-word chunk. -/
def sched80 (w : List Nat) : List Nat := schedIter w 64

/-- The SHA-1 working state. -/
abbrev Sha1State := Nat × Nat × Nat × Nat × Nat

/-- One SHA-1 compression round, at round index `i` with schedule word
`wrd`. -/
def sha1Round (st : Sha1State) (i wrd : Nat) : Sha1State :=
  let a := st.1
  let b := st.2.1
  let c := st.2.2.1
  let d := st.2.2.2.1
  let e := st.2.2.2.2
  let f :=
    if i < 20 then (b &&& c) ||| (not32 b &&& d)
    else if i < 40 then (b ^^^ c) ^^^ d
    else if i < 60 then (b &&& c) ||| (b &&& d) ||| (c &&& d)
    else (b ^^^ c) ^^^ d
  let k :=
    if i < 20 then 1518500249
    else if i < 40 then 1859775393
    else if i < 60 then 2400959708
    else 3395469782
  (w32 (rotl32 5 a + f + e + k + wrd), a, rotl32 30 b, c, d)

/-- Process one 64-byte chunk into the running hash state. -/
def sha1Chunk (h : Sha1State) (chunk : List Nat) : Sha1State :=
  let ws := sched80 (bytesToWords chunk)
  let st := (ws.enum.foldl (fun acc p => sha1Round acc p.1 p.2) h)
  (w32 (h.1 + st.1), w32 (h.2.1 + st.2.1), w32 (h.2.2.1 + st.2.2.1),
   w32 (h.2.2.2.1 + st.2.2.2.1), w32 (h.2.2.2.2 + st.2.2.2.2))

/-- Modelled from the spec of Node's `crypto.createHash('sha1')`
(FIPS 180-1): the five-word SHA-1 digest of a byte sequence. -/
def sha1Digest (msg : List Nat) : Sha1State :=
  (chunks64 (sha1Pad msg)).foldl sha1Chunk
    (1732584193, 4023233417, 2562383102, 271733878, 3285377520)

/-- Lowercase hex digit of a nibble. -/
def hexLower (n : Nat) : Char :=
  if n < 10 then Char.ofNat (48 + n) else Char.ofNat (87 + n)

/-- Fixed-width 8-digit lowercase hex of a 32-bit word. -/
def hex8 (n : Nat) : JStr :=
  [hexLower (n / 16 ^ 7 % 16), hexLower (n / 16 ^ 6 % 16), hexLower (n / 16 ^ 5 % 16),
   hexLower (n / 16 ^ 4 % 16), hexLower (n / 16 ^ 3 % 16), hexLower (n / 16 ^ 2 % 16),
   hexLower (n / 16 % 16), hexLower (n % 16)]

/-- The `sha1` helper of index.js (lines 452-454): hex-encoded SHA-1
digest of a buffer. -/
def sha1Hex (msg : List Nat) : JStr :=
  hex8 (sha1Digest msg).1 ++ hex8 (sha1Digest msg).2.1 ++ hex8 (sha1Digest msg).2.2.1 ++
    hex8 (sha1Digest msg).2.2.2.1 ++ hex8 (sha1Digest msg).2.2.2.2

/-- Is this a lowercase hex digit? -/
def isHexChar (c : Char) : Bool :=
  c.isDigit || (97 ≤ c.toNat && c.toNat ≤ 102)

/-- The upload POST request assembled by `uploadFile` (index.js lines
616-635): URL, headers and raw body exactly as handed to the transport. -/
structure UploadRequest where
  url : JStr
  authHeader : JStr
  fileNameHeader : JStr
  contentTypeHeader : JStr
  sha1Header : JStr
  contentLengthHeader : Nat
  body : List Nat
deriving Repr, DecidableEq

/-- The request-building core of `uploadFile` (index.js lines 616-635):
SHA-1 of the buffer, lease token, percent-encoded storage key, content
type with octet-stream default, checksum header, exact byte length, and
the untransformed buffer as body. -/
def mkUploadRequest (uploadUrl uploadAuthToken : JStr) (fileBuffer : List Nat)
    (fileName contentType : JStr) : UploadRequest :=
  { url := uploadUrl
    authHeader := uploadAuthToken
    fileNameHeader := encodeURIComponent fileName
    contentTypeHeader := if !contentType.isEmpty then contentType
      else "application/octet-stream".toList
    sha1Header := sha1Hex fileBuffer
    contentLengthHeader := fileBuffer.length
    body := fileBuffer }

/-- Characters that end the host portion of a URL. -/
def isHostEnd (c : Char) : Bool := c = '/' || c = '?' || c = '#'

/-- Modelled from the spec of WHATWG `new URL(u).pathname` for the http(s)
URLs this plugin builds and stores: after `http(s)://` and a non-empty
host, the pathname runs from the first `/` up to any query or fragment;
with no `/` it is `/`.  Non-http(s) or hostless input is a parse failure
(`none`), modelling the constructor throwing. -/
def urlPathnameAfterScheme (rest : JStr) : Option JStr :=
  if rest.takeWhile (fun c => !isHostEnd c) = [] then none
  else
    match rest.dropWhile (fun c => !isHostEnd c) with
    | [] => some ['/']
    | c :: cs =>
      if c = '/' then some ('/' :: cs.takeWhile (fun d => d ≠ '?' ∧ d ≠ '#'))
      else some ['/']

/-- See `urlPathnameAfterScheme`; dispatches on the scheme. -/
def urlPathname (u : JStr) : Option JStr :=
  if "https://".toList.isPrefixOf u then urlPathnameAfterScheme (u.drop 8)
  else if "http://".toList.isPrefixOf u then urlPathnameAfterScheme (u.drop 7)
  else none

/-- JS `String.prototype.split` on a single-character separator:
`"/a//b".split('/') = ["", "a", "", "b"]`. -/
def splitOnChar (sep : Char) : JStr → List JStr
  | [] => [[]]
  | c :: cs =>
    match splitOnChar sep cs with
    | [] => [[]]
    | h :: t => if c = sep then [] :: h :: t else (c :: h) :: t

/-- JS `Array.prototype.join('/')`. -/
def joinSlash : List JStr → JStr
  | [] => []
  | [x] => x
  | x :: xs => x ++ '/' :: joinSlash xs

/-- `extractFileNameFromUrl` (gui.js lines 58-73): parse the URL, split
the pathname on `/`; in the native `/file/<bucket>/...` shape return the
joined remainder, otherwise (custom domain) the pathname minus its
leading slash; `none` when URL parsing threw.  Note: the result is NOT
percent-decoded by the source. -/
def extractFileNameFromUrl (fileUrl bucketName : JStr) : Option JStr :=
  match urlPathname fileUrl with
  | none => none
  | some p =>
    let pathParts := splitOnChar '/' p
    if 3 ≤ pathParts.length ∧ pathParts.getD 1 [] = "file".toList ∧
        pathParts.getD 2 [] = bucketName then
      some (joinSlash (pathParts.drop 3))
    else
      some (p.drop 1)

/-- A resolved HTTP response as `makeRequest` (gui.js lines 17-52)
delivers it: a numeric status plus the JSON-decoded (or raw string)
body.  The transport itself is abstracted: theorems quantify over the
responses an exchange would produce. -/
structure HttpResp where
  status : Int
  body : JSValue

mutual

/-- Template-literal conversion `${v}` of a JS value to a string. -/
def jsDisplay : JSValue → JStr
  | .undefined => "undefined".toList
  | .null => "null".toList
  | .bool b => (if b then "true" else "false").toList
  | .num n => (toString n).toList
  | .str s => s
  | .arr xs => jsDisplayList xs
  | .obj _ => "[object Object]".toList

/-- Comma-joined display of array elements, as JS array-to-string does. -/
def jsDisplayList : List JSValue → JStr
  | [] => []
  | [x] => jsDisplay x
  | x :: xs => jsDisplay x ++ ',' :: jsDisplayList xs

end

def messageKey : JStr := "message".toList
def filesKey : JStr := "files".toList
def fileNameKey : JStr := "fileName".toList
def apiInfoKey : JStr := "apiInfo".toList
def storageApiKey : JStr := "storageApi".toList
def apiUrlKey : JStr := "apiUrl".toList
def downloadUrlKey : JStr := "downloadUrl".toList
def authorizationTokenKey : JStr := "authorizationToken".toList
def allowedKey : JStr := "allowed".toList

/-- The session triple `authorizeB2` (gui.js lines 78-100) extracts on a
200 response; the source performs no presence validation here, so fields
may be `undefined`. -/
structure GuiAuth where
  apiUrl : JSValue
  authToken : JSValue
  downloadUrl : JSValue

/-- `authorizeB2` (gui.js lines 78-100), with the authorize exchange's
response supplied by the caller.  On a non-200 status it throws
`授权失败: <message or 未知错误>`. -/
def authorizeB2 (authResp : HttpResp) : Except JStr GuiAuth :=
  if authResp.status ≠ 200 then
    .error ("授权失败: ".toList ++
      jsDisplay (jsOr (getField authResp.body messageKey) (.str "未知错误".toList)))
  else
    .ok { apiUrl := getField (getField (getField authResp.body apiInfoKey) storageApiKey) apiUrlKey
          authToken := getField authResp.body authorizationTokenKey
          downloadUrl := getField (getField (getField authResp.body apiInfoKey) storageApiKey) downloadUrlKey }

/-- The `{success, message}` result of `deleteB2File`. -/
structure DeleteOutcome where
  success : Bool
  message : JStr
deriving Repr, DecidableEq

/-- What a run of `deleteB2File` did: its result (or thrown error) and
which of the two data-plane exchanges were actually issued. -/
structure DeleteTrace where
  outcome : Except JStr DeleteOutcome
  listCalled : Bool
  deleteCalled : Bool

/-- The `files` array of a list response: `listResult.body.files || []`,
then treated as an array (the plugin's remote always sends an array). -/
def filesOf (body : JSValue) : List JSValue :=
  match jsOr (getField body filesKey) (.arr []) with
  | .arr xs => xs
  | _ => []

/-- `deleteB2File` (gui.js lines 105-164): reject an empty name, run
`authorizeB2`, list by `prefix = fileName` with `maxFileCount = 1`, scan
for an exact `fileName` match; with no match report success
(`文件不存在或已删除`, i.e. already absent) WITHOUT a delete call; else
issue the delete and fail only if it returns non-200.  The three
exchanges' responses are the oracle arguments. -/
def deleteB2File (fileName : JStr) (authResp listResp delResp : HttpResp) : DeleteTrace :=
  if fileName.isEmpty then
    { outcome := .error "文件名为空".toList, listCalled := false, deleteCalled := false }
  else
    match authorizeB2 authResp with
    | .error e => { outcome := .error e, listCalled := false, deleteCalled := false }
    | .ok _auth =>
      if listResp.status ≠ 200 then
        { outcome := .error ("获取文件信息失败: ".toList ++
            jsDisplay (getField listResp.body messageKey))
          listCalled := true, deleteCalled := false }
      else
        match (filesOf listResp.body).find? (fun f => jsStrictEqStr (getField f fileNameKey) fileName) with
        | none =>
          { outcome := .ok { success := true, message := "文件不存在或已删除".toList }
            listCalled := true, deleteCalled := false }
        | some _targetFile =>
          if delResp.status ≠ 200 then
            { outcome := .error ("删除失败: ".toList ++
                jsDisplay (getField delResp.body messageKey))
              listCalled := true, deleteCalled := true }
          else
            { outcome := .ok { success := true, message := "删除成功".toList }
              listCalled := true, deleteCalled := true }

/-- One entry of the batch handed to the `remove` listener. -/
structure RemoveItem where
  itype : JStr
  fileName : JStr
  imgUrl : JStr

/-- The configuration fields the remove listener reads. -/
structure B2Config where
  bucketName : JStr

/-- How the remove listener disposed of one batch item. -/
inductive ItemOutcome where
  | skippedNonB2 : ItemOutcome
  | skippedUnparseable : ItemOutcome
  | deleteSucceeded : ItemOutcome
  | deleteFailedLogged : JStr → ItemOutcome
deriving Repr, DecidableEq

/-- The per-item body of the `remove` listener's loop (gui.js lines
339-362): skip non-`b2` items; inside the try block extract the storage
key from the URL (skipping with a log when that fails or yields a falsy
name) and run `deleteB2File`, converting any thrown error into a logged
outcome via the catch.  `oracle` supplies the three responses the item's
delete flow would receive. -/
def handleRemoveItem (cfg : B2Config) (oracle : RemoveItem → HttpResp × HttpResp × HttpResp)
    (it : RemoveItem) : ItemOutcome :=
  if it.itype ≠ "b2".toList then .skippedNonB2
  else
    match extractFileNameFromUrl it.imgUrl cfg.bucketName with
    | none => .skippedUnparseable
    | some fn =>
      if fn.isEmpty then .skippedUnparseable
      else
        match (deleteB2File fn (oracle it).1 (oracle it).2.1 (oracle it).2.2).outcome with
        | .ok _ => .deleteSucceeded
        | .error e => .deleteFailedLogged e

/-- The `remove` listener body registered by `registerRemoveListener`
(gui.js lines 328-366): without configuration the batch is skipped;
otherwise the items are processed strictly in order, in the `Except`
monad that models JS exception propagation to the batch caller. -/
def runRemoveBatch (cfg? : Option B2Config)
    (oracle : RemoveItem → HttpResp × HttpResp × HttpResp) :
    List RemoveItem → Except JStr (List ItemOutcome)
  | [] => .ok (match cfg? with | none => [] | some _ => [])
  | it :: rest =>
    match cfg? with
    | none => .ok []
    | some cfg =>
      match runRemoveBatch (some cfg) oracle rest with
      | .ok os => .ok (handleRemoveItem cfg oracle it :: os)
      | .error e => .error e

/-- The session object the later `authorizeAccount` (index.js lines
516-561) returns. -/
structure Session where
  apiUrl : JSValue
  authToken : JSValue
  downloadUrl : JSValue
  allowed : JSValue

/-- The later `authorizeAccount` (index.js lines 516-561), as a function
of the transport's outcome (`.error` models the request rejecting):
normalize via `parseResponse`, require status strictly 200 and an object
body, extract `apiInfo?.storageApi?` fields defensively, require a truthy
apiUrl and token, and fall back to the apiUrl when downloadUrl is falsy. -/
def authorizeAccount (reqResult : Except JStr JSValue) : Except JStr Session :=
  match reqResult with
  | .error msg => .error ("Authorization request failed: ".toList ++ msg)
  | .ok result =>
    let env := parseResponseV2 result
    if !jsStrictEqNum env.statusCode 200 then
      .error ("Authorization failed: ".toList ++
        (if truthy env.body && isObjectLike env.body then
          jsDisplay (getField env.body messageKey)
        else "Unknown error".toList))
    else if !(truthy env.body && isObjectLike env.body) then
      .error "Authorization response is empty or invalid".toList
    else
      let storageApi := getField (getField env.body apiInfoKey) storageApiKey
      let apiUrl := getField storageApi apiUrlKey
      let downloadUrl := getField storageApi downloadUrlKey
      let authToken := getField env.body authorizationTokenKey
      if !truthy apiUrl || !truthy authToken then
        .error "Authorization response missing apiUrl or authorizationToken".toList
      else
        .ok { apiUrl := apiUrl, authToken := authToken,
              downloadUrl := jsOr downloadUrl apiUrl,
              allowed := getField env.body allowedKey }

/-- Does this `Except` carry an error? -/
def isErr : Except JStr α → Bool
  | .error _ => true
  | .ok _ => false

/-- The status the CLAIM's reading of the normalizer selects: the
`statusCode` field when present, else the `status` field (presence, not
truthiness, decides). -/
def claimStatusOf (r : JSValue) : JSValue :=
  if !isUndefined (getField r statusCodeKey) then getField r statusCodeKey
  else getField r statusKey

/-- "Numerically outside [200,300)" of the claim, on the JS number
coercion. -/
def outsideRange (v : JSValue) : Bool :=
  match jsToNumber v with
  | some n => decide (n < 200 ∨ 300 ≤ n)
  | none => false

/-- The claim's unwrap of "the body/data field": the `body` field when
present, else the `data` field, with a string payload re-parsed as JSON
when possible. -/
def claimUnwrap (r : JSValue) : JSValue :=
  parseIfString (if !isUndefined (getField r bodyKey) then getField r bodyKey
    else getField r dataKey)

/-- The response normalizer exactly as claim C1 words it: (1) a present
status outside [200,300) is returned with the unwrapped body/data; (2)
else a present body/data field gives status 200 with that body; (3) else
the raw value itself is the success body with status 200. -/
def normalizeClaim (r : JSValue) : Envelope :=
  if !isUndefined (claimStatusOf r) && outsideRange (claimStatusOf r) then
    { statusCode := claimStatusOf r, body := claimUnwrap r }
  else if !isUndefined (getField r bodyKey) || !isUndefined (getField r dataKey) then
    { statusCode := .num 200, body := claimUnwrap r }
  else
    { statusCode := .num 200, body := r }

/-- First truthy value in the list, else the final default — the claim's
amended description of the error branch's `body || data || result`. -/
def firstTruthy (vs : List JSValue) (dflt : JSValue) : JSValue :=
  match vs with
  | [] => dflt
  | v :: rest => if truthy v then v else firstTruthy rest dflt

/-- The amended claim-C1 normalizer: like `normalizeClaim` but (a) it
applies to non-null objects only, non-objects getting an undefined
status with the raw value as body; (b) the failure status is
`statusCode || status` under JS truthiness; (c) the failure branch's
body falls back from a falsy body/data to the raw value itself; (d) the
success branch unwraps the first truthy of body/data. -/
def normalizeAmended (r : JSValue) : Envelope :=
  if isObjectLike r then
    let st := jsOr (getField r statusCodeKey) (getField r statusKey)
    if truthy st && outsideRange st then
      { statusCode := st
        body := parseIfString (firstTruthy [getField r bodyKey, getField r dataKey] r) }
    else if !isUndefined (getField r bodyKey) || !isUndefined (getField r dataKey) then
      { statusCode := .num 200
        body := parseIfString (firstTruthy [getField r bodyKey] (getField r dataKey)) }
    else
      { statusCode := .num 200, body := r }
  else
    { statusCode := .undefined, body := r }


/-- Counterexample input for claim C1: an error wrapper whose `body`
field is present but falsy (`null`). -/
def c1ExInput : JSValue :=
  .obj [(statusCodeKey, .num 404), (bodyKey, .null)]

/-- Counterexample input for claims C1 (instance) and C10: a bare success
body with no status/body/data fields. -/
def bareFileId : JSValue :=
  .obj [("fileId".toList, .str "x".toList)]

/-- The nested `apiInfo?.storageApi` object of a normalized authorize
response body. -/
def storageApiOf (raw : JSValue) : JSValue :=
  getField (getField (parseResponseV2 raw).body apiInfoKey) storageApiKey

/-- The `apiUrl` the later `authorizeAccount` would extract from a raw
authorize result. -/
def apiUrlOf (raw : JSValue) : JSValue :=
  getField (storageApiOf raw) apiUrlKey

/-- The `downloadUrl` the later `authorizeAccount` would extract. -/
def downloadUrlOf (raw : JSValue) : JSValue :=
  getField (storageApiOf raw) downloadUrlKey

/-- The `authorizationToken` the later `authorizeAccount` would extract. -/
def tokenOf (raw : JSValue) : JSValue :=
  getField (parseResponseV2 raw).body authorizationTokenKey

/-- Witness input for C8: a direct authorize body carrying apiUrl,
downloadUrl and token. -/
def c8RawFull : JSValue :=
  .obj [(apiInfoKey, .obj [(storageApiKey,
          .obj [(apiUrlKey, .str "https://api004.backblazeb2.com".toList),
                (downloadUrlKey, .str "https://f004.backblazeb2.com".toList)])]),
        (authorizationTokenKey, .str "tok123".toList)]

/-- Witness input for C8: the same body with no downloadUrl field. -/
def c8RawNoDl : JSValue :=
  .obj [(apiInfoKey, .obj [(storageApiKey,
          .obj [(apiUrlKey, .str "https://api004.backblazeb2.com".toList)])]),
        (authorizationTokenKey, .str "tok123".toList)]

/-- Witness input for C9: a non-200 authorize wrapper carrying a remote
message. -/
def c9RawErr : JSValue :=
  .obj [(statusCodeKey, .num 401),
        (bodyKey, .obj [(messageKey, .str "bad credentials".toList)])]

/-- Witness item for C6: a b2-typed item whose delete flow will fail. -/
def c6Item1 : RemoveItem :=
  { itype := "b2".toList, fileName := "x.png".toList,
    imgUrl := "https://f1.example.com/file/b/x.png".toList }

/-- Witness item for C6: an item of another uploader's type. -/
def c6Item2 : RemoveItem :=
  { itype := "other".toList, fileName := "y.png".toList,
    imgUrl := "https://other.example.com/y.png".toList }

/-- Witness oracle for C6: authorize and list succeed (with an exact
match), the delete exchange answers 500 with message `boom`. -/
def c6Oracle : RemoveItem → HttpResp × HttpResp × HttpResp := fun _ =>
  ({ status := 200, body := .obj [] },
   { status := 200, body := .obj [(filesKey,
      .arr [.obj [(fileNameKey, .str "x.png".toList)]])] },
   { status := 500, body := .obj [(messageKey, .str "boom".toList)] })

/-- A non-empty all-decimal-digits string (the shape of an interpolated
`Date.now()`). -/
def isDigitStr (s : JStr) : Bool :=
  !s.isEmpty && s.all (fun c => '0' ≤ c && c ≤ '9')

/-- A six-character lowercase base-36 string (the shape of
`Math.random().toString(36).substring(2, 8)` draws). -/
def isBase36of6 (s : JStr) : Bool :=
  s.length == 6 && s.all (fun c => c.isDigit || ('a' ≤ c && c ≤ 'z'))

/-- Matching the anchored pattern `^logo_\d+_[0-9a-z]{6}\.png$`,
rendered structurally. -/
def matchesLogoKey (s : JStr) : Prop :=
  ∃ d r, isDigitStr d = true ∧ isBase36of6 r = true ∧
    s = "logo_".toList ++ d ++ '_' :: r ++ ".png".toList

theorem outsideRange_eq (v : JSValue) :
    outsideRange v = (jsLtNum v 200 || jsGeNum v 300) := by
  unfold outsideRange jsLtNum jsGeNum
  rcases jsToNumber v with _ | n
  · rfl
  · by_cases h1 : n < 200 <;> by_cases h2 : 300 ≤ n <;> simp [h1, h2]

theorem firstTruthy_two (b d r : JSValue) :
    firstTruthy [b, d] r = jsOr (jsOr b d) r := by
  unfold firstTruthy jsOr
  by_cases hb : truthy b <;> by_cases hd : truthy d <;> simp [hb, hd, firstTruthy]

theorem firstTruthy_one (b d : JSValue) : firstTruthy [b] d = jsOr b d := by
  unfold firstTruthy jsOr
  by_cases hb : truthy b <;> simp [hb, firstTruthy]

theorem jsOr_of_truthy (a b : JSValue) (h : truthy a = true) : jsOr a b = a := by
  unfold jsOr
  simp [h]

/-- Claim C1 (amended): the later `parseResponse` realizes the claimed
priority order with these refinements: only non-null objects are
inspected for fields (any other raw value gets an undefined status with
the raw value as body); the failure status is `statusCode || status`
under JS truthiness; the failure branch's body falls back to the raw
value itself when both `body` and `data` are falsy; the success branch
unwraps the first truthy of `body`/`data`.  In particular the bare
object `{fileId: "x"}` yields `{statusCode: 200, body: {fileId: "x"}}`. -/
theorem c1_parseResponse_priority_order :
    (∀ r : JSValue, parseResponseV2 r = normalizeAmended r) ∧
      parseResponseV2 bareFileId = { statusCode := .num 200, body := bareFileId } := by
  constructor
  · intro r
    unfold parseResponseV2 normalizeAmended
    simp only [outsideRange_eq, firstTruthy_two, firstTruthy_one]
  · rfl

/-- Claim C1 (counterexample): on `{statusCode: 404, body: null}` the
code does not return the unwrapped `body` field (`null`) as the claimed
priority order requires, but substitutes the raw wrapper object itself. -/
theorem c1_counterexample : parseResponseV2 c1ExInput ≠ normalizeClaim c1ExInput := by
  intro h
  have hb := congrArg Envelope.body h
  have h1 : (parseResponseV2 c1ExInput).body = c1ExInput := rfl
  have h2 : (normalizeClaim c1ExInput).body = JSValue.null := rfl
  rw [h1, h2] at hb
  unfold c1ExInput at hb
  cases hb

/-- Claim C10 (counterexample): the two `parseResponse` versions are not
extensionally equal — on the bare object `{fileId: "x"}` the earlier
version reports an undefined status, the later one reports 200. -/
theorem c10_counterexample : parseResponseV1 bareFileId ≠ parseResponseV2 bareFileId := by
  intro h
  have hs := congrArg Envelope.statusCode h
  have h1 : (parseResponseV1 bareFileId).statusCode = JSValue.undefined := rfl
  have h2 : (parseResponseV2 bareFileId).statusCode = JSValue.num 200 := rfl
  rw [h1, h2] at hs
  cases hs

/-- Claim C10 (amended): the two `parseResponse` versions agree on
non-object raw values, on error wrappers (truthy `statusCode || status`
outside [200,300)) carrying a truthy `body`/`data`, and on wrappers
whose selected status is exactly 200 with a `body` or `data` field
present; in general (e.g. on a bare object with none of these fields)
they differ. -/
theorem c10_parseResponse_versions_agree (r : JSValue) :
    (isObjectLike r = false → parseResponseV1 r = parseResponseV2 r) ∧
    (truthy (jsOr (getField r statusCodeKey) (getField r statusKey)) = true →
      (jsLtNum (jsOr (getField r statusCodeKey) (getField r statusKey)) 200 ||
        jsGeNum (jsOr (getField r statusCodeKey) (getField r statusKey)) 300) = true →
      truthy (jsOr (getField r bodyKey) (getField r dataKey)) = true →
      parseResponseV1 r = parseResponseV2 r) ∧
    (jsOr (getField r statusCodeKey) (getField r statusKey) = .num 200 →
      (!isUndefined (getField r bodyKey) || !isUndefined (getField r dataKey)) = true →
      parseResponseV1 r = parseResponseV2 r) := by
  refine ⟨fun hobj => ?_, fun hsc hout hbd => ?_, fun hsc hbd => ?_⟩
  · unfold parseResponseV1 parseResponseV2
    simp [hobj]
  · by_cases hobj : isObjectLike r = true
    · have hbody := jsOr_of_truthy (jsOr (getField r bodyKey) (getField r dataKey)) r hbd
      unfold parseResponseV1 parseResponseV2
      simp only [hbody]
      simp [hobj, hsc, hout]
    · unfold parseResponseV1 parseResponseV2
      simp [hobj]
  · by_cases hobj : isObjectLike r = true
    · unfold parseResponseV1 parseResponseV2
      rw [hsc]
      simp [hobj, hbd, truthy, jsLtNum, jsGeNum, jsToNumber]
    · unfold parseResponseV1 parseResponseV2
      simp [hobj]

/-- Witness for the amended C10 agreement: the two versions agree on the
concrete non-object raw value `"plain"`. -/
theorem c10_witness :
    isObjectLike (JSValue.str "plain".toList) = false ∧
      parseResponseV1 (JSValue.str "plain".toList) = parseResponseV2 (JSValue.str "plain".toList) :=
  ⟨rfl, (c10_parseResponse_versions_agree (JSValue.str "plain".toList)).1 rfl⟩

/-- Claim C7: `buildFileUrl` with no custom domain concatenates
`downloadBaseUrl/file/bucketName/` with the storage key percent-encoded
as a whole; with a custom domain it strips one trailing slash and
appends `/percent-encoded(key)`; including the spec's two concrete
instances for key `"a/b c.png"`. -/
theorem c7_buildFileUrl (d b k cd : JStr) :
    (cd = [] → buildFileUrl d b k cd =
      d ++ "/file/".toList ++ b ++ '/' :: encodeURIComponent k) ∧
    (cd ≠ [] → buildFileUrl d b k cd =
      (if cd.getLast? = some '/' then cd.dropLast else cd) ++ '/' :: encodeURIComponent k) ∧
    buildFileUrl "https://f1.example.com".toList "b".toList "a/b c.png".toList [] =
      "https://f1.example.com/file/b/a%2Fb%20c.png".toList ∧
    buildFileUrl "https://f1.example.com".toList "b".toList "a/b c.png".toList
        "https://cdn.example.com/".toList =
      "https://cdn.example.com/a%2Fb%20c.png".toList := by
  refine ⟨fun h => ?_, fun h => ?_, by decide, by decide⟩
  · subst h
    rfl
  · unfold buildFileUrl
    cases cd with
    | nil => exact absurd rfl h
    | cons c t => rfl

/-- Witness for C7 at the spec's custom-domain instance. -/
theorem c7_witness :
    "https://cdn.example.com/".toList ≠ ([] : JStr) ∧
      buildFileUrl "https://f1.example.com".toList "b".toList "a/b c.png".toList
          "https://cdn.example.com/".toList =
        (if "https://cdn.example.com/".toList.getLast? = some '/' then
          "https://cdn.example.com/".toList.dropLast
        else "https://cdn.example.com/".toList) ++
          '/' :: encodeURIComponent "a/b c.png".toList :=
  ⟨by decide,
    (c7_buildFileUrl "https://f1.example.com".toList "b".toList "a/b c.png".toList
      "https://cdn.example.com/".toList).2.1 (by decide)⟩

theorem hexLower_hex (m : Nat) (h : m < 16) : isHexChar (hexLower m) = true := by
  interval_cases m <;> rfl

theorem hex8_length (n : Nat) : (hex8 n).length = 8 := rfl

theorem hex8_all (n : Nat) : (hex8 n).all isHexChar = true := by
  simp only [hex8, List.all_cons, List.all_nil, Bool.and_eq_true]
  refine ⟨?_, ?_, ?_, ?_, ?_, ?_, ?_, ?_, trivial⟩ <;>
    exact hexLower_hex _ (Nat.mod_lt _ (by decide))

theorem sha1Hex_length (m : List Nat) : (sha1Hex m).length = 40 := by
  simp [sha1Hex, List.length_append, hex8_length]

theorem sha1Hex_all_hex (m : List Nat) : (sha1Hex m).all isHexChar = true := by
  simp [sha1Hex, List.all_append, hex8_all]

/-- Claim C4: the upload request computes its checksum header as the
hex SHA-1 (160 bits = 40 hex digits, all lowercase hex) of exactly the
bytes sent as the body — the untransformed buffer — and carries the
lease token, the percent-encoded storage key, the content type (with
the octet-stream default) and the buffer's exact byte length. -/
theorem c4_upload_checksum_over_sent_bytes (uploadUrl uploadAuthToken : JStr)
    (fileBuffer : List Nat) (fileName contentType : JStr) :
    (mkUploadRequest uploadUrl uploadAuthToken fileBuffer fileName contentType).sha1Header =
      sha1Hex (mkUploadRequest uploadUrl uploadAuthToken fileBuffer fileName contentType).body ∧
    (mkUploadRequest uploadUrl uploadAuthToken fileBuffer fileName contentType).body =
      fileBuffer ∧
    (mkUploadRequest uploadUrl uploadAuthToken fileBuffer fileName contentType).contentLengthHeader =
      fileBuffer.length ∧
    ((mkUploadRequest uploadUrl uploadAuthToken fileBuffer fileName contentType).sha1Header).length = 40 ∧
    ((mkUploadRequest uploadUrl uploadAuthToken fileBuffer fileName contentType).sha1Header).all isHexChar = true ∧
    (mkUploadRequest uploadUrl uploadAuthToken fileBuffer fileName contentType).fileNameHeader =
      encodeURIComponent fileName ∧
    (mkUploadRequest uploadUrl uploadAuthToken fileBuffer fileName contentType).authHeader =
      uploadAuthToken ∧
    (mkUploadRequest uploadUrl uploadAuthToken fileBuffer fileName contentType).url = uploadUrl ∧
    (mkUploadRequest uploadUrl uploadAuthToken fileBuffer fileName contentType).contentTypeHeader =
      (if !contentType.isEmpty then contentType else "application/octet-stream".toList) :=
  ⟨rfl, rfl, rfl, sha1Hex_length fileBuffer, sha1Hex_all_hex fileBuffer, rfl, rfl, rfl, rfl⟩

theorem jsStrictEqNum_iff (v : JSValue) (n : Int) :
    jsStrictEqNum v n = true ↔ v = .num n := by
  cases v <;> simp [jsStrictEqNum]

theorem getField_of_not_objectLike (v : JSValue) (k : JStr)
    (h : isObjectLike v = false) : getField v k = .undefined := by
  cases v <;> simp_all [isObjectLike, getField]

theorem truthy_str (s : JStr) : truthy (.str s) = !s.isEmpty := rfl

theorem truthy_undefined : truthy .undefined = false := rfl

theorem isEmpty_false_of_ne_nil {l : JStr} (h : l ≠ []) : l.isEmpty = false := by
  cases l with
  | nil => exact absurd rfl h
  | cons c t => rfl

/-- Claim C8: on a 200 authorize response whose body carries the nested
apiUrl, downloadUrl and authorizationToken (as non-empty strings), the
later `authorizeAccount` returns a session with exactly those three
values — no fallback to the apiUrl while a downloadUrl is present — and
when the downloadUrl is absent the session's download URL equals its
apiUrl. -/
theorem c8_authorizer_session_fields (raw : JSValue) (a d t : JStr) :
    (truthy (parseResponseV2 raw).body = true →
      isObjectLike (parseResponseV2 raw).body = true →
      (parseResponseV2 raw).statusCode = .num 200 →
      apiUrlOf raw = .str a → a ≠ [] →
      downloadUrlOf raw = .str d → d ≠ [] →
      tokenOf raw = .str t → t ≠ [] →
      authorizeAccount (.ok raw) = .ok
        { apiUrl := .str a, authToken := .str t, downloadUrl := .str d,
          allowed := getField (parseResponseV2 raw).body allowedKey }) ∧
    (truthy (parseResponseV2 raw).body = true →
      isObjectLike (parseResponseV2 raw).body = true →
      (parseResponseV2 raw).statusCode = .num 200 →
      apiUrlOf raw = .str a → a ≠ [] →
      downloadUrlOf raw = .undefined →
      tokenOf raw = .str t → t ≠ [] →
      authorizeAccount (.ok raw) = .ok
        { apiUrl := .str a, authToken := .str t, downloadUrl := .str a,
          allowed := getField (parseResponseV2 raw).body allowedKey }) := by
  constructor
  · intro hb hbo hst hau hane hdu hdne hat htne
    have hae := isEmpty_false_of_ne_nil hane
    have hde := isEmpty_false_of_ne_nil hdne
    have hte := isEmpty_false_of_ne_nil htne
    unfold authorizeAccount
    simp only [apiUrlOf, downloadUrlOf, tokenOf, storageApiOf] at hau hdu hat
    simp [hst, hau, hdu, hat, hb, hbo, jsStrictEqNum, truthy_str, jsOr, hae, hde, hte]
  · intro hb hbo hst hau hane hdu hat htne
    have hae := isEmpty_false_of_ne_nil hane
    have hte := isEmpty_false_of_ne_nil htne
    unfold authorizeAccount
    simp only [apiUrlOf, downloadUrlOf, tokenOf, storageApiOf] at hau hdu hat
    simp [hst, hau, hdu, hat, hb, hbo, jsStrictEqNum, truthy_str, truthy_undefined, jsOr, hae, hte]

/-- Witness for C8 on concrete direct-body authorize responses, both
with and without a downloadUrl field. -/
theorem c8_witness :
    (truthy (parseResponseV2 c8RawFull).body = true ∧
      apiUrlOf c8RawFull = .str "https://api004.backblazeb2.com".toList ∧
      downloadUrlOf c8RawFull = .str "https://f004.backblazeb2.com".toList ∧
      authorizeAccount (.ok c8RawFull) = .ok
        { apiUrl := .str "https://api004.backblazeb2.com".toList,
          authToken := .str "tok123".toList,
          downloadUrl := .str "https://f004.backblazeb2.com".toList,
          allowed := getField (parseResponseV2 c8RawFull).body allowedKey }) ∧
    (downloadUrlOf c8RawNoDl = .undefined ∧
      authorizeAccount (.ok c8RawNoDl) = .ok
        { apiUrl := .str "https://api004.backblazeb2.com".toList,
          authToken := .str "tok123".toList,
          downloadUrl := .str "https://api004.backblazeb2.com".toList,
          allowed := getField (parseResponseV2 c8RawNoDl).body allowedKey }) := by
  refine ⟨⟨rfl, rfl, rfl, ?_⟩, ⟨rfl, ?_⟩⟩
  · exact (c8_authorizer_session_fields c8RawFull
      "https://api004.backblazeb2.com".toList "https://f004.backblazeb2.com".toList
      "tok123".toList).1 rfl rfl rfl rfl (by decide) rfl (by decide) rfl (by decide)
  · exact (c8_authorizer_session_fields c8RawNoDl
      "https://api004.backblazeb2.com".toList "https://f004.backblazeb2.com".toList
      "tok123".toList).2 rfl rfl rfl rfl (by decide) rfl rfl (by decide)

theorem truthy_of_objectLike (v : JSValue) (h : isObjectLike v = true) :
    truthy v = true := by
  cases v <;> simp_all [isObjectLike, truthy]

/-- Claim C9: the later `authorizeAccount` fails exactly when the remote
call errors, when the normalized status is not (strictly) 200, or when
the extracted apiUrl or authorization token is absent (falsy); and on a
non-200 response whose object body carries a string `message`, the
failure message contains that message. -/
theorem c9_authorize_error_conditions (raw : JSValue) (e m : JStr) :
    authorizeAccount (.error e) = .error ("Authorization request failed: ".toList ++ e) ∧
    (isErr (authorizeAccount (.ok raw)) = true ↔
      ((parseResponseV2 raw).statusCode ≠ .num 200 ∨
        truthy (apiUrlOf raw) = false ∨ truthy (tokenOf raw) = false)) ∧
    ((parseResponseV2 raw).statusCode ≠ .num 200 →
      truthy (parseResponseV2 raw).body = true →
      isObjectLike (parseResponseV2 raw).body = true →
      getField (parseResponseV2 raw).body messageKey = .str m →
      ∃ pre post : JStr, authorizeAccount (.ok raw) = .error (pre ++ m ++ post)) := by
  refine ⟨rfl, ?_, ?_⟩
  · by_cases h1 : jsStrictEqNum (parseResponseV2 raw).statusCode 200 = true
    · have hst := (jsStrictEqNum_iff _ _).1 h1
      by_cases h2 : (truthy (parseResponseV2 raw).body &&
          isObjectLike (parseResponseV2 raw).body) = true
      · by_cases h3 : (!truthy (apiUrlOf raw) || !truthy (tokenOf raw)) = true
        · have hL : isErr (authorizeAccount (.ok raw)) = true := by
            simp only [apiUrlOf, storageApiOf, tokenOf] at h3
            unfold authorizeAccount
            simp [h1, h2, h3, isErr]
          rw [hL]
          simp only [Bool.or_eq_true, Bool.not_eq_true'] at h3
          exact ⟨fun _ => Or.inr h3, fun _ => rfl⟩
        · have hA : truthy (apiUrlOf raw) = true := by
            cases hx : truthy (apiUrlOf raw)
            · exact absurd (by simp [hx]) h3
            · rfl
          have hT : truthy (tokenOf raw) = true := by
            cases hx : truthy (tokenOf raw)
            · exact absurd (by simp [hx]) h3
            · rfl
          have hL : isErr (authorizeAccount (.ok raw)) = false := by
            have hA' := hA
            have hT' := hT
            simp only [apiUrlOf, storageApiOf, tokenOf] at hA' hT'
            unfold authorizeAccount
            simp [h1, h2, isErr, hA', hT']
          rw [hL]
          constructor
          · intro hh
            exact absurd hh (by simp)
          · intro hOr
            rcases hOr with hO | hO | hO
            · exact absurd hst hO
            · rw [hA] at hO
              cases hO
            · rw [hT] at hO
              cases hO
      · have h2f : isObjectLike (parseResponseV2 raw).body = false := by
          cases hio : isObjectLike (parseResponseV2 raw).body
          · rfl
          · exact absurd (by simp [truthy_of_objectLike _ hio, hio]) h2
        have hau : apiUrlOf raw = .undefined := by
          simp only [apiUrlOf, storageApiOf, getField_of_not_objectLike _ _ h2f]
          rfl
        have hL : isErr (authorizeAccount (.ok raw)) = true := by
          unfold authorizeAccount
          simp [h1, isErr, h2f]
        rw [hL]
        refine ⟨fun _ => Or.inr (Or.inl ?_), fun _ => rfl⟩
        rw [hau]
        rfl
    · have hne : (parseResponseV2 raw).statusCode ≠ .num 200 :=
        fun hh => h1 ((jsStrictEqNum_iff _ _).2 hh)
      have hL : isErr (authorizeAccount (.ok raw)) = true := by
        unfold authorizeAccount
        simp only [Bool.not_eq_true] at h1
        simp [h1, isErr]
      rw [hL]
      exact ⟨fun _ => Or.inl hne, fun _ => rfl⟩
  · intro hne hb hbo hmsg
    refine ⟨"Authorization failed: ".toList, [], ?_⟩
    have h1 : jsStrictEqNum (parseResponseV2 raw).statusCode 200 = false := by
      cases hj : jsStrictEqNum (parseResponseV2 raw).statusCode 200
      · rfl
      · exact absurd ((jsStrictEqNum_iff _ _).1 hj) hne
    unfold authorizeAccount
    simp [h1, hb, hbo, hmsg, jsDisplay]

/-- Witness for C9 on a concrete 401 wrapper with a remote message: the
authorizer fails and the error contains the remote message. -/
theorem c9_witness :
    (parseResponseV2 c9RawErr).statusCode ≠ .num 200 ∧
    truthy (parseResponseV2 c9RawErr).body = true ∧
    isObjectLike (parseResponseV2 c9RawErr).body = true ∧
    getField (parseResponseV2 c9RawErr).body messageKey = .str "bad credentials".toList ∧
    (∃ pre post : JStr,
      authorizeAccount (.ok c9RawErr) = .error (pre ++ "bad credentials".toList ++ post)) ∧
    isErr (authorizeAccount (.ok c9RawErr)) = true := by
  have hne : (parseResponseV2 c9RawErr).statusCode ≠ .num 200 := by
    intro h
    rw [show (parseResponseV2 c9RawErr).statusCode = JSValue.num 401 from rfl] at h
    injection h with h2
    exact absurd h2 (by decide)
  refine ⟨hne, rfl, rfl, rfl, ?_, ?_⟩
  · exact (c9_authorize_error_conditions c9RawErr [] "bad credentials".toList).2.2
      hne rfl rfl rfl
  · exact ((c9_authorize_error_conditions c9RawErr [] "bad credentials".toList).2.1).2
      (Or.inl hne)

/-- Claim C3: when the list call succeeds but contains no exact name
match, the composed delete reports success with the "already absent"
message (`文件不存在或已删除`) and issues no delete call; when an exact
match exists, the delete call succeeds on a 200 and a delete error is
raised exactly on a genuine non-200 delete response. -/
theorem c3_delete_absent_short_circuits (fileName : JStr)
    (authResp listResp delResp : HttpResp) (tf : JSValue) :
    (fileName ≠ [] → authResp.status = 200 → listResp.status = 200 →
      (filesOf listResp.body).all
        (fun f => !jsStrictEqStr (getField f fileNameKey) fileName) = true →
      deleteB2File fileName authResp listResp delResp =
        { outcome := .ok { success := true, message := "文件不存在或已删除".toList },
          listCalled := true, deleteCalled := false }) ∧
    (fileName ≠ [] → authResp.status = 200 → listResp.status = 200 →
      (filesOf listResp.body).find?
        (fun f => jsStrictEqStr (getField f fileNameKey) fileName) = some tf →
      delResp.status = 200 →
      deleteB2File fileName authResp listResp delResp =
        { outcome := .ok { success := true, message := "删除成功".toList },
          listCalled := true, deleteCalled := true }) ∧
    (fileName ≠ [] → authResp.status = 200 → listResp.status = 200 →
      (filesOf listResp.body).find?
        (fun f => jsStrictEqStr (getField f fileNameKey) fileName) = some tf →
      delResp.status ≠ 200 →
      deleteB2File fileName authResp listResp delResp =
        { outcome := .error ("删除失败: ".toList ++
            jsDisplay (getField delResp.body messageKey)),
          listCalled := true, deleteCalled := true }) := by
  have hauthok : ∀ h : authResp.status = 200, authorizeB2 authResp =
      .ok { apiUrl := getField (getField (getField authResp.body apiInfoKey) storageApiKey) apiUrlKey
            authToken := getField authResp.body authorizationTokenKey
            downloadUrl := getField (getField (getField authResp.body apiInfoKey) storageApiKey) downloadUrlKey } := by
    intro h
    unfold authorizeB2
    simp [h]
  refine ⟨fun hfn hauth hlist hnone => ?_, fun hfn hauth hlist hfind hdel => ?_,
    fun hfn hauth hlist hfind hdel => ?_⟩
  · have hfind : (filesOf listResp.body).find?
        (fun f => jsStrictEqStr (getField f fileNameKey) fileName) = none := by
      apply List.find?_eq_none.mpr
      intro x hx
      have hh := List.all_eq_true.mp hnone x hx
      simp at hh ⊢
      exact hh
    unfold deleteB2File
    simp [isEmpty_false_of_ne_nil hfn, hauthok hauth, hlist, hfind]
  · unfold deleteB2File
    simp [isEmpty_false_of_ne_nil hfn, hauthok hauth, hlist, hfind, hdel]
  · unfold deleteB2File
    simp [isEmpty_false_of_ne_nil hfn, hauthok hauth, hlist, hfind, hdel]

/-- Witness for C3: a page containing only the longer key
`logo.png.bak` (a prefix match for `logo.png`, not an exact match)
yields the already-absent success without a delete call, even though the
delete oracle would have answered 500. -/
theorem c3_witness :
    "logo.png".toList ≠ ([] : JStr) ∧
    (filesOf (JSValue.obj [(filesKey,
        .arr [.obj [(fileNameKey, .str "logo.png.bak".toList)]])])).all
      (fun f => !jsStrictEqStr (getField f fileNameKey) "logo.png".toList) = true ∧
    deleteB2File "logo.png".toList { status := 200, body := .obj [] }
        { status := 200, body := .obj [(filesKey,
            .arr [.obj [(fileNameKey, .str "logo.png.bak".toList)]])] }
        { status := 500, body := .null } =
      { outcome := .ok { success := true, message := "文件不存在或已删除".toList },
        listCalled := true, deleteCalled := false } := by
  refine ⟨by decide, rfl, ?_⟩
  exact (c3_delete_absent_short_circuits "logo.png".toList { status := 200, body := .obj [] }
    { status := 200, body := .obj [(filesKey,
        .arr [.obj [(fileNameKey, .str "logo.png.bak".toList)]])] }
    { status := 500, body := .null } JSValue.undefined).1 (by decide) rfl rfl rfl

/-- Claim C6: the remove listener processes a batch one item at a time in
batch order, each item's outcome independent of the others (the batch
result is the per-item map, and no per-item error propagates to the
batch caller — the batch always returns `ok`); non-b2 items and items
whose URL yields no (or an empty) storage key are skipped; a failing
delete is converted into a logged outcome. -/
theorem c6_remove_batch_isolation (cfg : B2Config)
    (oracle : RemoveItem → HttpResp × HttpResp × HttpResp)
    (items : List RemoveItem) (it : RemoveItem) :
    runRemoveBatch (some cfg) oracle items =
      .ok (items.map (handleRemoveItem cfg oracle)) ∧
    (it.itype ≠ "b2".toList → handleRemoveItem cfg oracle it = .skippedNonB2) ∧
    (it.itype = "b2".toList →
      extractFileNameFromUrl it.imgUrl cfg.bucketName = none →
      handleRemoveItem cfg oracle it = .skippedUnparseable) ∧
    (∀ fn, it.itype = "b2".toList →
      extractFileNameFromUrl it.imgUrl cfg.bucketName = some fn → fn = [] →
      handleRemoveItem cfg oracle it = .skippedUnparseable) ∧
    (∀ fn e, it.itype = "b2".toList →
      extractFileNameFromUrl it.imgUrl cfg.bucketName = some fn → fn ≠ [] →
      (deleteB2File fn (oracle it).1 (oracle it).2.1 (oracle it).2.2).outcome = .error e →
      handleRemoveItem cfg oracle it = .deleteFailedLogged e) := by
  refine ⟨?_, fun hty => ?_, fun hty hex => ?_, fun fn hty hex hfn => ?_,
    fun fn e hty hex hfn hdel => ?_⟩
  · induction items with
    | nil => rfl
    | cons i rest ih =>
      unfold runRemoveBatch
      simp only [ih]
      rfl
  · unfold handleRemoveItem
    rw [if_pos hty]
  · unfold handleRemoveItem
    rw [if_neg (not_not_intro hty)]
    simp only [hex]
  · unfold handleRemoveItem
    rw [if_neg (not_not_intro hty)]
    subst hfn
    simp only [hex]
    rfl
  · unfold handleRemoveItem
    rw [if_neg (not_not_intro hty)]
    simp only [hex, isEmpty_false_of_ne_nil hfn, hdel]
    rfl

/-- Witness for C6: a two-item batch where the first item's cloud delete
fails (500) and the second is another uploader's item — the batch still
returns `ok`, the failure is logged as the first outcome, and the
second item is processed (skipped) in order. -/
theorem c6_witness :
    runRemoveBatch (some { bucketName := "b".toList }) c6Oracle [c6Item1, c6Item2] =
      .ok [.deleteFailedLogged ("删除失败: boom".toList), .skippedNonB2] ∧
    handleRemoveItem { bucketName := "b".toList } c6Oracle c6Item2 = .skippedNonB2 := by
  constructor
  · exact ((c6_remove_batch_isolation { bucketName := "b".toList } c6Oracle
      [c6Item1, c6Item2] c6Item1).1).trans (by rfl)
  · exact (c6_remove_batch_isolation { bucketName := "b".toList } c6Oracle
      [] c6Item2).2.1 (by decide)

theorem findLastDot_none_iff (l : JStr) : findLastDot l = none ↔ '.' ∉ l := by
  induction l with
  | nil => simp [findLastDot]
  | cons c cs ih =>
    unfold findLastDot
    cases h : findLastDot cs with
    | some i =>
      have hin : '.' ∈ cs := by
        by_contra hno
        rw [ih.mpr hno] at h
        cases h
      simp [hin, List.mem_cons]
    | none =>
      have hno := ih.mp h
      by_cases hc : c = '.'
      · simp [hc]
      · simp [hc, hno, List.mem_cons, eq_comm]

theorem findLastDot_drop (l : JStr) (i : Nat) (h : findLastDot l = some i) :
    l.drop i = '.' :: l.drop (i + 1) ∧ '.' ∉ l.drop (i + 1) := by
  induction l generalizing i with
  | nil => cases h
  | cons c cs ih =>
    unfold findLastDot at h
    cases hcs : findLastDot cs with
    | some j =>
      rw [hcs] at h
      injection h with h'
      subst h'
      simpa [List.drop] using ih j hcs
    | none =>
      rw [hcs] at h
      by_cases hc : c = '.'
      · rw [if_pos hc] at h
        injection h with h'
        subst h'
        subst hc
        have hno := (findLastDot_none_iff cs).mp hcs
        simpa using hno
      · rw [if_neg hc] at h
        cases h

/-- Claim C2 (counterexample): for a dotless name the code does NOT take
the whole name as base with an empty extension — JS `substring` clamping
makes the base empty and the extension the whole name, so `"noext"`
yields `_<ts>_<rand>noext`. -/
theorem c2_counterexample :
    ¬ (fileBasePart "noext".toList = "noext".toList ∧ fileExtPart "noext".toList = []) ∧
    fileBasePart "noext".toList = [] ∧
    fileExtPart "noext".toList = "noext".toList ∧
    generateUniqueFileName "noext".toList "1712000000000".toList "abc123".toList =
      "_1712000000000_abc123noext".toList := by
  refine ⟨by decide, rfl, rfl, rfl⟩

/-- Claim C2 (amended): `uniqueKey` splits the original name at its last
`.` into base and extension; when no `.` exists the base is EMPTY and
the extension is the whole name (appended after the random token).  For
every digit timestamp and 6-character base-36 draw, `"logo.png"`
produces a key matching `^logo_\d+_[0-9a-z]{6}\.png$`, and `"noext"`
produces a key containing no `.` at all (in particular none before the
numeric part). -/
theorem c2_unique_key_shape (name tsStr randomStr : JStr) :
    ('.' ∉ name → fileBasePart name = [] ∧ fileExtPart name = name) ∧
    ('.' ∈ name →
      fileBasePart name ++ fileExtPart name = name ∧
      ∃ rest, fileExtPart name = '.' :: rest ∧ '.' ∉ rest) ∧
    (isDigitStr tsStr = true → isBase36of6 randomStr = true →
      matchesLogoKey (generateUniqueFileName "logo.png".toList tsStr randomStr)) ∧
    (isDigitStr tsStr = true → isBase36of6 randomStr = true →
      '.' ∉ generateUniqueFileName "noext".toList tsStr randomStr) := by
  refine ⟨fun hno => ?_, fun hdot => ?_, fun hts hr => ?_, fun hts hr => ?_⟩
  · have hfd : findLastDot name = none := (findLastDot_none_iff name).mpr hno
    unfold fileBasePart fileExtPart
    rw [hfd]
    simp
  · cases hfd : findLastDot name with
    | none => exact absurd ((findLastDot_none_iff name).mp hfd) (not_not_intro hdot)
    | some i =>
      have hd := findLastDot_drop name i hfd
      constructor
      · unfold fileBasePart fileExtPart
        rw [hfd]
        exact List.take_append_drop i name
      · refine ⟨name.drop (i + 1), ?_, hd.2⟩
        unfold fileExtPart
        rw [hfd]
        exact hd.1
  · exact ⟨tsStr, randomStr, hts, hr, rfl⟩
  · intro hmem
    have hts2 : ∀ c ∈ tsStr, '0' ≤ c ∧ c ≤ '9' := by
      have hh := hts
      simp [isDigitStr, List.all_eq_true] at hh
      exact hh.2
    have hr2 : ∀ c ∈ randomStr, c.isDigit = true ∨ ('a' ≤ c ∧ c ≤ 'z') := by
      have hh := hr
      simp [isBase36of6, List.all_eq_true] at hh
      exact hh.2
    have hnotts : '.' ∉ tsStr := fun h => absurd (hts2 '.' h).1 (by decide)
    have hnotr : '.' ∉ randomStr := fun h =>
      (hr2 '.' h).elim (fun hh => absurd hh (by decide)) (fun hh => absurd hh.1 (by decide))
    have hnoext : '.' ∉ "noext".toList := by decide
    have hud : ('.' : Char) ≠ '_' := by decide
    have hmem' : '.' ∈ ('_' :: tsStr ++ '_' :: randomStr ++ "noext".toList) := hmem
    rcases List.mem_append.mp hmem' with h | h
    · rcases List.mem_append.mp h with h | h
      · rcases List.mem_cons.mp h with h | h
        · exact hud h
        · exact hnotts h
      · rcases List.mem_cons.mp h with h | h
        · exact hud h
        · exact hnotr h
    · exact hnoext h

/-- Witness for C2 at a concrete timestamp and random draw. -/
theorem c2_witness :
    isDigitStr "1712000000000".toList = true ∧
    isBase36of6 "abc123".toList = true ∧
    matchesLogoKey
      (generateUniqueFileName "logo.png".toList "1712000000000".toList "abc123".toList) ∧
    '.' ∉ generateUniqueFileName "noext".toList "1712000000000".toList "abc123".toList ∧
    '.' ∈ "logo.png".toList ∧
    fileBasePart "logo.png".toList ++ fileExtPart "logo.png".toList = "logo.png".toList := by
  refine ⟨by decide, by decide, ?_, ?_, by decide, ?_⟩
  · exact (c2_unique_key_shape "logo.png".toList "1712000000000".toList
      "abc123".toList).2.2.1 (by decide) (by decide)
  · exact (c2_unique_key_shape "noext".toList "1712000000000".toList
      "abc123".toList).2.2.2 (by decide) (by decide)
  · exact ((c2_unique_key_shape "logo.png".toList "1712000000000".toList
      "abc123".toList).2.1 (by decide)).1

theorem hexUpper_ne_stops (m : Nat) (h : m < 16) :
    hexUpper m ≠ '/' ∧ hexUpper m ≠ '?' ∧ hexUpper m ≠ '#' := by
  interval_cases m <;> refine ⟨by decide, by decide, by decide⟩

theorem encodeURIComponent_no_stops (k : JStr) :
    ∀ c ∈ encodeURIComponent k, c ≠ '/' ∧ c ≠ '?' ∧ c ≠ '#' := by
  intro c hc
  unfold encodeURIComponent at hc
  rw [List.mem_flatten] at hc
  obtain ⟨piece, hp, hcp⟩ := hc
  rw [List.mem_map] at hp
  obtain ⟨ch, hch, rfl⟩ := hp
  by_cases hu : isUnreservedURI ch = true
  · rw [if_pos hu] at hcp
    rcases List.mem_cons.mp hcp with he | he
    · subst he
      refine ⟨fun he2 => ?_, fun he2 => ?_, fun he2 => ?_⟩ <;>
        (rw [he2] at hu; exact absurd hu (by decide))
    · cases he
  · rw [if_neg hu] at hcp
    rw [List.mem_flatten] at hcp
    obtain ⟨pb, hpb, hcpb⟩ := hcp
    rw [List.mem_map] at hpb
    obtain ⟨bte, hbte, rfl⟩ := hpb
    unfold pctByte at hcpb
    rcases List.mem_cons.mp hcpb with he | he
    · subst he
      exact ⟨by decide, by decide, by decide⟩
    rcases List.mem_cons.mp he with he2 | he2
    · subst he2
      exact hexUpper_ne_stops _ (Nat.mod_lt _ (by decide))
    rcases List.mem_cons.mp he2 with he3 | he3
    · subst he3
      exact hexUpper_ne_stops _ (Nat.mod_lt _ (by decide))
    · cases he3

theorem takeWhile_append_stop (p : Char → Bool) (l m : JStr) (x : Char)
    (hl : ∀ c ∈ l, p c = true) (hx : p x = false) :
    (l ++ x :: m).takeWhile p = l ∧ (l ++ x :: m).dropWhile p = x :: m := by
  induction l with
  | nil => simp [List.takeWhile_cons, List.dropWhile_cons, hx]
  | cons a as ih =>
    have ha := hl a (List.mem_cons_self a as)
    have ih' := ih (fun c hc => hl c (List.mem_cons_of_mem a hc))
    simp [List.takeWhile_cons, List.dropWhile_cons, ha, ih'.1, ih'.2]

theorem takeWhile_all (p : Char → Bool) (l : JStr) (hl : ∀ c ∈ l, p c = true) :
    l.takeWhile p = l := by
  induction l with
  | nil => rfl
  | cons a as ih =>
    have ha := hl a (List.mem_cons_self a as)
    have ih' := ih (fun c hc => hl c (List.mem_cons_of_mem a hc))
    simp [List.takeWhile_cons, ha, ih']

theorem splitOnChar_ne_nil (sep : Char) (l : JStr) : splitOnChar sep l ≠ [] := by
  cases l with
  | nil => simp [splitOnChar]
  | cons c cs =>
    unfold splitOnChar
    cases hs : splitOnChar sep cs with
    | nil => simp
    | cons h t =>
      by_cases hc : c = sep <;> simp [hc]

theorem splitOnChar_cons_sep (sep : Char) (l : JStr) :
    splitOnChar sep (sep :: l) = [] :: splitOnChar sep l := by
  show (match splitOnChar sep l with
    | [] => [[]]
    | h :: t => if sep = sep then [] :: h :: t else (sep :: h) :: t) =
    [] :: splitOnChar sep l
  cases hs : splitOnChar sep l with
  | nil => exact absurd hs (splitOnChar_ne_nil sep l)
  | cons h t => simp

theorem splitOnChar_nosep (sep : Char) (l : JStr) (h : sep ∉ l) :
    splitOnChar sep l = [l] := by
  induction l with
  | nil => rfl
  | cons c cs ih =>
    have hc : ¬(c = sep) := fun he => h (he ▸ List.mem_cons_self c cs)
    have hcs : sep ∉ cs := fun hm => h (List.mem_cons_of_mem c hm)
    unfold splitOnChar
    rw [ih hcs]
    simp [hc]

theorem splitOnChar_append_nosep (sep : Char) (l m : JStr) (h : sep ∉ l) :
    splitOnChar sep (l ++ sep :: m) = l :: splitOnChar sep m := by
  induction l with
  | nil =>
    rw [List.nil_append]
    exact splitOnChar_cons_sep sep m
  | cons c cs ih =>
    have hc : ¬(c = sep) := fun he => h (he ▸ List.mem_cons_self c cs)
    have hcs : sep ∉ cs := fun hm => h (List.mem_cons_of_mem c hm)
    rw [List.cons_append]
    show (match splitOnChar sep (cs ++ sep :: m) with
      | [] => [[]]
      | h :: t => if c = sep then [] :: h :: t else (c :: h) :: t) =
      (c :: cs) :: splitOnChar sep m
    rw [ih hcs]
    simp [hc]

theorem isPrefixOf_append_self (p l : JStr) : p.isPrefixOf (p ++ l) = true := by
  induction p with
  | nil => simp [List.isPrefixOf]
  | cons a as ih => simp [List.isPrefixOf, ih]

theorem urlPathname_https (host rest : JStr) (hh : host ≠ [])
    (hhost : ∀ c ∈ host, isHostEnd c = false) :
    urlPathname ("https://".toList ++ (host ++ '/' :: rest)) =
      some ('/' :: rest.takeWhile (fun d => d ≠ '?' ∧ d ≠ '#')) := by
  have hpre := isPrefixOf_append_self "https://".toList (host ++ '/' :: rest)
  have hdrop : ("https://".toList ++ (host ++ '/' :: rest)).drop 8 =
      host ++ '/' :: rest := rfl
  have hstop := takeWhile_append_stop (fun c => !isHostEnd c) host rest '/'
    (fun c hc => by simp [hhost c hc]) (by decide)
  unfold urlPathname
  rw [hpre]
  simp only [if_true, reduceIte]
  rw [hdrop]
  unfold urlPathnameAfterScheme
  rw [hstop.1, hstop.2, if_neg hh]
  simp

/-- Counterexample input already used by C7; kept here for reference. -/
theorem c5_counterexample :
    extractFileNameFromUrl
        (buildFileUrl "https://f1.example.com".toList "b".toList "a b.png".toList [])
        "b".toList ≠ some "a b.png".toList ∧
    extractFileNameFromUrl
        (buildFileUrl "https://f1.example.com".toList "b".toList "a b.png".toList [])
        "b".toList = some "a%20b.png".toList := by
  exact ⟨by decide, by decide⟩

/-- Claim C5 (amended): for well-formed hosts and bucket names, deriving
the key back from a produced URL yields the PERCENT-ENCODED storage key
in both shapes — the native `downloadBaseUrl/file/bucketName/...` shape
and the custom-domain shape — because `extractFileNameFromUrl` never
percent-decodes; the derived key equals the original exactly when
percent-encoding leaves the key unchanged. -/
theorem c5_url_key_roundtrip (host b k : JStr) (hh : host ≠ [])
    (hhost : ∀ c ∈ host, isHostEnd c = false)
    (hbs : '/' ∉ b) (hbq : '?' ∉ b) (hbf : '#' ∉ b) :
    extractFileNameFromUrl (buildFileUrl ("https://".toList ++ host) b k []) b =
      some (encodeURIComponent k) ∧
    extractFileNameFromUrl (buildFileUrl [] b k ("https://".toList ++ host)) b =
      some (encodeURIComponent k) ∧
    (extractFileNameFromUrl (buildFileUrl ("https://".toList ++ host) b k []) b =
        some k ↔ encodeURIComponent k = k) := by
  have hencS : '/' ∉ encodeURIComponent k :=
    fun hm => (encodeURIComponent_no_stops k _ hm).1 rfl
  have hencQF : ∀ c ∈ encodeURIComponent k, (fun d => decide (d ≠ '?' ∧ d ≠ '#')) c = true :=
    fun c hc => decide_eq_true
      ⟨(encodeURIComponent_no_stops k c hc).2.1, (encodeURIComponent_no_stops k c hc).2.2⟩
  have hurl : buildFileUrl ("https://".toList ++ host) b k [] =
      "https://".toList ++ (host ++ '/' :: ("file".toList ++ '/' :: (b ++ '/' :: encodeURIComponent k))) := by
    show ((("https://".toList ++ host) ++ "/file/".toList) ++ b) ++ ('/' :: encodeURIComponent k) = _
    simp only [List.append_assoc]
    rfl
  have hnoQF : ∀ c ∈ ("file".toList ++ '/' :: (b ++ '/' :: encodeURIComponent k)),
      (fun d => decide (d ≠ '?' ∧ d ≠ '#')) c = true := by
    intro c hc
    apply decide_eq_true
    rcases List.mem_append.mp hc with h | h
    · exact ⟨fun he => by subst he; revert h; decide,
        fun he => by subst he; revert h; decide⟩
    rcases List.mem_cons.mp h with h | h
    · subst h
      exact ⟨by decide, by decide⟩
    rcases List.mem_append.mp h with h | h
    · exact ⟨fun he => hbq (he ▸ h), fun he => hbf (he ▸ h)⟩
    rcases List.mem_cons.mp h with h | h
    · subst h
      exact ⟨by decide, by decide⟩
    · exact ⟨(encodeURIComponent_no_stops k c h).2.1, (encodeURIComponent_no_stops k c h).2.2⟩
  have hpath := urlPathname_https host
    ("file".toList ++ '/' :: (b ++ '/' :: encodeURIComponent k)) hh hhost
  rw [takeWhile_all _ _ hnoQF] at hpath
  have hsplit : splitOnChar '/'
      ('/' :: 'f' :: 'i' :: 'l' :: 'e' :: '/' :: (b ++ '/' :: encodeURIComponent k)) =
      [[], ['f', 'i', 'l', 'e'], b, encodeURIComponent k] := by
    show splitOnChar '/'
      ('/' :: (['f', 'i', 'l', 'e'] ++ '/' :: (b ++ '/' :: encodeURIComponent k))) = _
    rw [splitOnChar_cons_sep, splitOnChar_append_nosep _ _ _ (by decide),
      splitOnChar_append_nosep _ _ _ hbs, splitOnChar_nosep _ _ hencS]
  have h1 : extractFileNameFromUrl (buildFileUrl ("https://".toList ++ host) b k []) b =
      some (encodeURIComponent k) := by
    unfold extractFileNameFromUrl
    rw [hurl, hpath]
    simp [hsplit, joinSlash]
  have hlast : ("https://".toList ++ host).getLast? ≠ some '/' := by
    rw [List.getLast?_append_of_ne_nil _ hh, List.getLast?_eq_getLast_of_ne_nil hh]
    intro hgl
    injection hgl with hgl'
    have hmem := List.getLast_mem hh
    rw [hgl'] at hmem
    exact absurd (hhost '/' hmem) (by decide)
  have hne2 : (!("https://".toList ++ host).isEmpty) = true := rfl
  have hurl2 : buildFileUrl [] b k ("https://".toList ++ host) =
      "https://".toList ++ (host ++ '/' :: encodeURIComponent k) := by
    unfold buildFileUrl
    rw [hne2]
    simp only [if_true, reduceIte]
    rw [if_neg hlast]
    simp [List.append_assoc]
  have hpath2 := urlPathname_https host (encodeURIComponent k) hh hhost
  rw [takeWhile_all _ _ hencQF] at hpath2
  have hsplit2 : splitOnChar '/' ('/' :: encodeURIComponent k) =
      [[], encodeURIComponent k] := by
    rw [splitOnChar_cons_sep, splitOnChar_nosep _ _ hencS]
  have h2 : extractFileNameFromUrl (buildFileUrl [] b k ("https://".toList ++ host)) b =
      some (encodeURIComponent k) := by
    unfold extractFileNameFromUrl
    rw [hurl2, hpath2]
    simp [hsplit2]
  refine ⟨h1, h2, ?_, ?_⟩
  · intro he
    have := h1.symm.trans he
    injection this
  · intro he
    rw [h1, he]

/-- Witness for C5 at a concrete host, bucket and key. -/
theorem c5_witness :
    "f1.example.com".toList ≠ ([] : JStr) ∧
    (∀ c ∈ "f1.example.com".toList, isHostEnd c = false) ∧
    extractFileNameFromUrl
        (buildFileUrl ("https://".toList ++ "f1.example.com".toList) "b".toList
          "x.png".toList []) "b".toList = some (encodeURIComponent "x.png".toList) ∧
    (extractFileNameFromUrl
        (buildFileUrl ("https://".toList ++ "f1.example.com".toList) "b".toList
          "x.png".toList []) "b".toList = some "x.png".toList ↔
      encodeURIComponent "x.png".toList = "x.png".toList) := by
  refine ⟨by decide, by decide, ?_, ?_⟩
  · exact (c5_url_key_roundtrip "f1.example.com".toList "b".toList "x.png".toList
      (by decide) (by decide) (by decide) (by decide) (by decide)).1
  · exact (c5_url_key_roundtrip "f1.example.com".toList "b".toList "x.png".toList
      (by decide) (by decide) (by decide) (by decide) (by decide)).2.2
